import Mathlib

/-!
Verification of the Simple-Catalog web server (`server.js`).

The server stores catalog items as JSON files in a `catalog/` directory,
raw image bytes in an `images/` directory, and a singleton `config.json`
holding the display title and the item counter.  Request handling is a
pure function of the request, the disk state, and the outcome of the
fallible file-system operations, so it is embedded here as a state
transformer: each handler takes the server state and returns an
`Outcome` (a complete HTTP response and the new state, an uncaught
exception, or a request left without any response).
-/

namespace SimpleCatalog

/-- One catalog entry, as stored in `catalog/<id>.json`
(`server.js` lines 157-162). -/
structure Item where
  id : Nat
  name : String
  description : String
  image : String
deriving DecidableEq

/-- The singleton configuration persisted in `config.json`:
display title and the high-water item counter. -/
structure Config where
  title : String
  itemCount : Nat
deriving DecidableEq

/-- A parsed file field of a multipart body: original filename and raw
payload bytes (bytes are modelled as a string of raw characters). -/
structure FilePart where
  filename : String
  data : String
deriving DecidableEq

/-- Modelled from the spec: the multipart module (not present under
`src/`) parses a `multipart/form-data` body and populates `req.body`
with the named text fields and file fields; a file field with no chosen
file is present with an empty filename.  `uploadItem` consumes the
fields `itemName`, `itemDescription` and `itemImage`. -/
structure UploadBody where
  itemName : String
  itemDescription : String
  itemImage : FilePart
deriving DecidableEq

/-- The in-memory data loaded once at startup: the stylesheet bytes
(`server.js` line 18) and the template texts loaded by
`template.loadDir('templates')` (line 20). -/
structure Env where
  stylesheet : String
  catalogTpl : String
  detailedTpl : String
  uploadFormTpl : String
deriving DecidableEq

/-- Outcome of the fallible file-system operations a single request can
perform: whether the `fs.writeFile` of the uploaded image fails
(`server.js` line 147) and whether the `fs.readdir` of the catalog
directory fails (line 62). -/
structure FsOracle where
  imageWriteFails : Bool
  readdirFails : Bool
deriving DecidableEq

/-- The on-disk state: `config.json`, the `catalog/` directory
(filename to parsed item) and the `images/` directory (filename to raw
bytes).  Directories are association lists; lookup takes the most
recent binding, so a later write with the same name overwrites. -/
structure ServerState where
  config : Config
  catalog : List (String × Item)
  images : List (String × String)
deriving DecidableEq

/-- An HTTP response: status code, optional Content-Type header, body. -/
structure Response where
  status : Nat
  contentType : Option String
  body : String
deriving DecidableEq

/-- Result of handling one request: a complete response together with
the resulting disk state, an exception that escaped the handler
uncaught (e.g. `readFileSync` throwing ENOENT on line 110), or a code
path that never calls `res.end` and leaves the connection hanging. -/
inductive Outcome where
  | ok : Response → ServerState → Outcome
  | thrown : ServerState → Outcome
  | noResponse : ServerState → Outcome
deriving DecidableEq

/-- The disk state after the request, whatever the outcome was. -/
def Outcome.finalState : Outcome → ServerState
  | .ok _ s => s
  | .thrown s => s
  | .noResponse s => s

/-- Lookup in a directory association list (first binding wins). -/
def dirGet {α : Type} : List (String × α) → String → Option α
  | [], _ => none
  | (k, v) :: t, name => if k = name then some v else dirGet t name

/-- Write a file into a directory: the new binding shadows any old one. -/
def dirPut {α : Type} (d : List (String × α)) (name : String) (v : α) :
    List (String × α) :=
  (name, v) :: d

/-- Collapse runs of consecutive slashes, as POSIX path resolution does
when the server concatenates `'catalog/' + req.url` and the URL itself
starts with a slash. -/
def squeeze : List Char → List Char
  | [] => []
  | [c] => [c]
  | c :: d :: rest =>
    if c = '/' ∧ d = '/' then squeeze (d :: rest)
    else c :: squeeze (d :: rest)

/-- The directory-entry name denoted by the path text that follows a
directory prefix ending in a slash: collapse duplicate slashes and drop
leading ones.  POSIX resolution of `.` and `..` segments is not
modelled, so the model is exact only when the text denotes a single
path segment (no interior slash); theorems quantifying over URLs carry
that hypothesis. -/
def entryName (s : String) : String :=
  ⟨(squeeze s.data).dropWhile (fun c => c = '/')⟩

/-- Value of a hexadecimal digit character. -/
def hexDigitVal (c : Char) : Option Nat :=
  if '0' ≤ c ∧ c ≤ '9' then some (c.toNat - 48)
  else if 'a' ≤ c ∧ c ≤ 'f' then some (c.toNat - 87)
  else if 'A' ≤ c ∧ c ≤ 'F' then some (c.toNat - 55)
  else none

/-- Percent-decoding of URL text, as performed by the JavaScript
builtin `decodeURIComponent` on the ASCII range: a valid `%XX` escape
becomes the character with code `XX`; other characters pass through.
The model is exact only on percent-free text: on a malformed escape
the real builtin throws `URIError` (and multi-byte escapes decode to
UTF-8, not single code points), so every theorem quantifying over URLs
carries a percent-free hypothesis. -/
def pctDecode : List Char → List Char
  | [] => []
  | c :: rest =>
    if c = '%' then
      match rest with
      | a :: b :: rest2 =>
        match hexDigitVal a, hexDigitVal b with
        | some x, some y => Char.ofNat (16 * x + y) :: pctDecode rest2
        | _, _ => '%' :: a :: b :: pctDecode rest2
      | r => '%' :: pctDecode r
    else c :: pctDecode rest

/-- Model of the JavaScript `decodeURIComponent` builtin. -/
def decodeURIComponent (s : String) : String :=
  ⟨pctDecode s.data⟩

/-- The `pathname` component produced by `url.parse(req.url)`: the URL
text up to the query string or fragment. -/
def pathname (u : String) : String :=
  ⟨u.data.takeWhile (fun c => !(c = '?' || c = '#'))⟩

/-- Whether the first list is a leading segment of the second. -/
def isPre : List Char → List Char → Bool
  | [], _ => true
  | _ :: _, [] => false
  | a :: as, b :: bs => a = b && isPre as bs

/-- Whether `pat` occurs as a contiguous substring of `hay`, the
behavior of the JavaScript `String.prototype.includes`. -/
def containsSub (hay pat : List Char) : Bool :=
  if isPre pat hay then true
  else
    match hay with
    | [] => false
    | _ :: t => containsSub t pat

/-- The router's image test (`server.js` lines 215-220): the URL is
served as an image when it contains one of the listed extensions; note
the lowercase and uppercase variants are tested separately and `.ICO`
is absent. -/
def hasImageExt (u : String) : Bool :=
  containsSub u.data ".jpg".data || containsSub u.data ".JPG".data ||
  containsSub u.data ".jpeg".data || containsSub u.data ".JPEG".data ||
  containsSub u.data ".png".data || containsSub u.data ".PNG".data ||
  containsSub u.data ".svg".data || containsSub u.data ".SVG".data ||
  containsSub u.data ".bmp".data || containsSub u.data ".BMP".data ||
  containsSub u.data ".ico".data

/-- Replace every occurrence of `pat` (left to right, non-overlapping)
by `rep`.  The fuel argument bounds the recursion; one character of the
text is consumed per step, so `length + 1` fuel is always enough. -/
def replaceFuel (pat rep : List Char) : Nat → List Char → List Char
  | _, [] => []
  | 0, s => s
  | fuel + 1, c :: t =>
    if pat ≠ [] ∧ isPre pat (c :: t) then
      rep ++ replaceFuel pat rep fuel ((c :: t).drop pat.length)
    else c :: replaceFuel pat rep fuel t

/-- Modelled from the spec: the template module (not present under
`src/`) renders a template by replacing every occurrence of each
placeholder, written as the key between double braces, with the
caller-supplied value; with no substitutions the raw template is
returned unchanged. -/
def render (tpl : String) (subst : List (String × String)) : String :=
  subst.foldl
    (fun acc kv =>
      ⟨replaceFuel ("\x7b\x7b" ++ kv.1 ++ "\x7d\x7d").data kv.2.data
        (acc.data.length + 1) acc.data⟩)
    tpl

/-- The items listed from the catalog directory, in directory order
(`getCatalogData` plus the per-file `JSON.parse(readFileSync ...)` in
`buildCatalog`, `server.js` lines 61-78). -/
def listItems (s : ServerState) : List Item :=
  s.catalog.map Prod.snd

/-- The anchor-wrapped image tag built for one item by
`imageNamesToTags` (`server.js` lines 94-100); the href is the item id
rendered in decimal. -/
def mkAnchorTag (it : Item) : String :=
  "<a href=\"" ++ Nat.repr it.id ++
    "\">\n              <img class=\"item-image\" src=\"" ++ it.image ++
    "\" alt=\"" ++ it.image ++ "\">\n            </a>"

/-- `imageNamesToTags` (`server.js` lines 94-100). -/
def imageNamesToTags (jsonData : List Item) : List String :=
  jsonData.map mkAnchorTag

/-- `buildCatalog` (`server.js` lines 74-84): parse every item file and
render the catalog template with the configured title and the joined
image tags. -/
def buildCatalog (env : Env) (s : ServerState) : String :=
  render env.catalogTpl
    [("title", s.config.title),
     ("imageTags", String.join (imageNamesToTags (listItems s)))]

/-- `serveCatalog` (`server.js` lines 29-41): list the catalog
directory; on a readdir error answer 500 with an empty body, otherwise
answer 200 `text/html` with the built catalog page. -/
def serveCatalog (env : Env) (o : FsOracle) (s : ServerState) : Outcome :=
  if o.readdirFails then .ok ⟨500, none, ""⟩ s
  else .ok ⟨200, some "text/html", buildCatalog env s⟩ s

/-- `serveUploadForm` (`server.js` lines 49-52). -/
def serveUploadForm (env : Env) (s : ServerState) : Outcome :=
  .ok ⟨200, some "text/html", render env.uploadFormTpl []⟩ s

/-- `buildDetailedPage` (`server.js` lines 121-127). -/
def buildDetailedPage (env : Env) (jsonItem : Item) : String :=
  render env.detailedTpl
    [("name", jsonItem.name),
     ("description", jsonItem.description),
     ("imageTag",
      "<img class=\"item-image-detailed\" src=\"" ++ jsonItem.image ++
        "\" alt=\"" ++ jsonItem.image ++ "\">")]

/-- `serveDetailedPage` (`server.js` lines 109-113): synchronously read
`'catalog/' + decodeURIComponent(item + '.json')` where `item` is the
raw request URL.  The read is *not* guarded: a missing file makes
`fs.readFileSync` throw, and the exception escapes the handler. -/
def serveDetailedPage (env : Env) (item : String) (s : ServerState) :
    Outcome :=
  match dirGet s.catalog (entryName (decodeURIComponent (item ++ ".json"))) with
  | none => .thrown s
  | some jsonItem => .ok ⟨200, some "text/html", buildDetailedPage env jsonItem⟩ s

/-- `serveImage` (`server.js` lines 178-190): asynchronously read
`'images/' + decodeURIComponent(fileName)`; on error answer 404 with an
empty body, otherwise answer 200 with the raw bytes and an `image/*`
content type. -/
def serveImage (fileName : String) (s : ServerState) : Outcome :=
  match dirGet s.images (entryName (decodeURIComponent fileName)) with
  | none => .ok ⟨404, none, ""⟩ s
  | some d => .ok ⟨200, some "image/*", d⟩ s

/-- `uploadItem` (`server.js` lines 136-168), after the multipart
parser has populated the body: reject with 400 when no file was
attached; answer 500 when the image write fails; otherwise save the
image, increment the counter, persist the config, write the new item
file named after the new counter value, and respond with the freshly
rendered catalog page. -/
def uploadItem (env : Env) (o : FsOracle) (body : UploadBody)
    (s : ServerState) : Outcome :=
  if body.itemImage.filename = "" then
    .ok ⟨400, none, "No file specified"⟩ s
  else if o.imageWriteFails then
    .ok ⟨500, none, "Server Error"⟩ s
  else
    let s1 : ServerState :=
      { s with images := dirPut s.images body.itemImage.filename body.itemImage.data }
    let newCount := s1.config.itemCount + 1
    let newItem : Item :=
      ⟨newCount, body.itemName, body.itemDescription, body.itemImage.filename⟩
    let s2 : ServerState := { s1 with config := { s1.config with itemCount := newCount } }
    let s3 : ServerState :=
      { s2 with catalog := dirPut s2.catalog (Nat.repr newCount ++ ".json") newItem }
    serveCatalog env o s3

/-- The `getItem` operation of the catalog store (spec section 4.3):
read the item file named after the id. -/
def getItem (s : ServerState) (id : Nat) : Option Item :=
  dirGet s.catalog (Nat.repr id ++ ".json")

/-- The serialization `JSON.stringify` produces for the item object
built on `server.js` lines 157-162 (field order as constructed). -/
def itemToJson (it : Item) : String :=
  "\x7b\"id\":" ++ Nat.repr it.id ++ ",\"name\":\"" ++ it.name ++
    "\",\"description\":\"" ++ it.description ++ "\",\"image\":\"" ++
    it.image ++ "\"\x7d"

/-- `handleRequest` (`server.js` lines 199-223): switch on the parsed
pathname; the method is consulted only inside the `/upload` case, and a
`/upload` request that is neither GET nor POST falls through without
any response.  The default case tests the raw URL for an image
extension and otherwise treats it as a detail-page request. -/
def handleRequest (env : Env) (o : FsOracle) (method : String)
    (url : String) (body : UploadBody) (s : ServerState) : Outcome :=
  if pathname url = "/catalog" then serveCatalog env o s
  else if pathname url = "/upload" then
    if method = "GET" then serveUploadForm env s
    else if method = "POST" then uploadItem env o body s
    else .noResponse s
  else if pathname url = "/catalog.css" then
    .ok ⟨200, some "text/css", env.stylesheet⟩ s
  else if hasImageExt url then serveImage url s
  else serveDetailedPage env url s

/-! Concrete fixtures used by the witness and counterexample theorems. -/

/-- A concrete startup environment. -/
def envD : Env := ⟨"BODY-OF-CATALOG-CSS", "CATALOG-PAGE", "DETAIL-PAGE", "UPLOAD-FORM"⟩

/-- The all-operations-succeed file-system oracle. -/
def oOk : FsOracle := ⟨false, false⟩

/-- A demo catalog item. -/
def demoItem (n : Nat) : Item :=
  ⟨n, "Item " ++ Nat.repr n, "Description " ++ Nat.repr n, "img" ++ Nat.repr n ++ ".png"⟩

/-- The spec's concrete upload scenario start state: `itemCount = 5`
and five item files `1.json` .. `5.json`. -/
def s5 : ServerState :=
  ⟨⟨"My Catalog", 5⟩,
   [("1.json", demoItem 1), ("2.json", demoItem 2), ("3.json", demoItem 3),
    ("4.json", demoItem 4), ("5.json", demoItem 5)],
   [("img1.png", "B1"), ("img2.png", "B2"), ("img3.png", "B3"),
    ("img4.png", "B4"), ("img5.png", "B5")]⟩

/-- The spec's concrete upload submission. -/
def lampBody : UploadBody := ⟨"Lamp", "A desk lamp", ⟨"lamp.png", "LAMPBYTES"⟩⟩

/-- A server state with an empty catalog. -/
def emptyState : ServerState := ⟨⟨"T", 0⟩, [], []⟩

/-- A trivial parsed body (used for requests that never read it). -/
def body0 : UploadBody := ⟨"", "", ⟨"", ""⟩⟩

/-- A parsed upload body whose file field has no filename (no file
chosen in the form). -/
def noFileBody : UploadBody := ⟨"Lamp", "A desk lamp", ⟨"", ""⟩⟩

/-- The oracle under which the image `fs.writeFile` fails. -/
def oWF : FsOracle := ⟨true, false⟩

example : pathname "/catalog?x=1" = "/catalog" := by decide
example : entryName (decodeURIComponent ("/6" ++ ".json")) = "6.json" := by decide
example : entryName (decodeURIComponent ("/6.json" ++ ".json")) = "6.json.json" := by decide
example : hasImageExt "/pic.ICO" = false := by decide
example : hasImageExt "/pic.ico" = true := by decide
example : hasImageExt "/pic.PNG" = true := by decide
example : decodeURIComponent "/a%20b" = "/a b" := by decide
example : handleRequest envD oOk "GET" "/1" body0 emptyState = .thrown emptyState := by decide
example : handleRequest envD oOk "PUT" "/upload" body0 emptyState = .noResponse emptyState := by decide
example : handleRequest envD oOk "GET" "/catalog.css" body0 emptyState
    = .ok ⟨200, some "text/css", "BODY-OF-CATALOG-CSS"⟩ emptyState := by decide
example : (uploadItem envD oOk lampBody s5).finalState.config.itemCount = 6 := by decide
example : getItem (uploadItem envD oOk lampBody s5).finalState 6
    = some ⟨6, "Lamp", "A desk lamp", "lamp.png"⟩ := by decide
example : itemToJson ⟨6, "Lamp", "A desk lamp", "lamp.png"⟩
    = "\x7b\"id\":6,\"name\":\"Lamp\",\"description\":\"A desk lamp\",\"image\":\"lamp.png\"\x7d" := by
  decide
example : render "A \x7b\x7btitle\x7d\x7d B" [("title", "X")] = "A X B" := by decide

/-! Theorems for the claims. -/

/-- Whatever the readdir outcome, `serveCatalog` leaves the disk state
unchanged. -/
theorem serveCatalog_finalState (env : Env) (o : FsOracle) (s : ServerState) :
    (serveCatalog env o s).finalState = s := by
  unfold serveCatalog
  cases o.readdirFails <;> rfl

/-- Claim C1: an upload with a non-empty file field, under succeeding
file writes, increments the persisted counter, stores the new item
under the id-derived filename with name, description and image taken
verbatim from the submission (so reading it back via `getItem` returns
exactly the submitted fields with the incremented id), and stores the
uploaded bytes under the submitted filename; concretely, starting from
`itemCount = 5`, uploading `itemName="Lamp"`, `itemDescription="A desk
lamp"` and file `lamp.png` creates `catalog/6.json` whose serialization
is exactly the expected JSON text, writes the bytes to
`images/lamp.png`, and persists `itemCount = 6`. -/
theorem upload_creates_item_and_roundtrip (env : Env) (o : FsOracle)
    (s : ServerState) (body : UploadBody)
    (hf : body.itemImage.filename ≠ "") (ho : o.imageWriteFails = false) :
    (uploadItem env o body s).finalState.config.itemCount = s.config.itemCount + 1 ∧
    getItem (uploadItem env o body s).finalState (s.config.itemCount + 1)
      = some ⟨s.config.itemCount + 1, body.itemName, body.itemDescription,
              body.itemImage.filename⟩ ∧
    dirGet (uploadItem env o body s).finalState.images body.itemImage.filename
      = some body.itemImage.data ∧
    dirGet (uploadItem envD oOk lampBody s5).finalState.catalog "6.json"
      = some ⟨6, "Lamp", "A desk lamp", "lamp.png"⟩ ∧
    itemToJson ⟨6, "Lamp", "A desk lamp", "lamp.png"⟩
      = "\x7b\"id\":6,\"name\":\"Lamp\",\"description\":\"A desk lamp\",\"image\":\"lamp.png\"\x7d" ∧
    dirGet (uploadItem envD oOk lampBody s5).finalState.images "lamp.png"
      = some "LAMPBYTES" ∧
    (uploadItem envD oOk lampBody s5).finalState.config.itemCount = 6 := by
  refine ⟨?_, ?_, ?_, by decide, by decide, by decide, by decide⟩ <;>
    (unfold uploadItem
     rw [if_neg hf]
     simp only [ho, Bool.false_eq_true, if_false]
     rw [serveCatalog_finalState]) <;>
    simp [getItem, dirGet, dirPut]

/-- Witness for C1 at the spec's concrete scenario. -/
theorem upload_creates_item_and_roundtrip_witness :
    lampBody.itemImage.filename ≠ "" ∧ oOk.imageWriteFails = false ∧
    ((uploadItem envD oOk lampBody s5).finalState.config.itemCount
        = s5.config.itemCount + 1 ∧
     getItem (uploadItem envD oOk lampBody s5).finalState (s5.config.itemCount + 1)
        = some ⟨s5.config.itemCount + 1, lampBody.itemName, lampBody.itemDescription,
                lampBody.itemImage.filename⟩ ∧
     dirGet (uploadItem envD oOk lampBody s5).finalState.images
          lampBody.itemImage.filename
        = some lampBody.itemImage.data ∧
     dirGet (uploadItem envD oOk lampBody s5).finalState.catalog "6.json"
        = some ⟨6, "Lamp", "A desk lamp", "lamp.png"⟩ ∧
     itemToJson ⟨6, "Lamp", "A desk lamp", "lamp.png"⟩
        = "\x7b\"id\":6,\"name\":\"Lamp\",\"description\":\"A desk lamp\",\"image\":\"lamp.png\"\x7d" ∧
     dirGet (uploadItem envD oOk lampBody s5).finalState.images "lamp.png"
        = some "LAMPBYTES" ∧
     (uploadItem envD oOk lampBody s5).finalState.config.itemCount = 6) :=
  ⟨by decide, rfl,
   upload_creates_item_and_roundtrip envD oOk s5 lampBody (by decide) rfl⟩

/-- Claim C2 (refuted by the code, which contradicts the error-handling
design it was written to): a GET for a detail page whose item file is
missing makes the unguarded `readFileSync` on `server.js` line 110
throw, and the exception escapes `handleRequest` uncaught instead of
becoming an HTTP error response; moreover a `/upload` request whose
method is neither GET nor POST runs no handler at all and leaves the
connection without any response (`server.js` lines 206-209). -/
theorem unhandled_detail_exception :
    handleRequest envD oOk "GET" "/1" body0 emptyState = .thrown emptyState ∧
    handleRequest envD oOk "PUT" "/upload" body0 emptyState
      = .noResponse emptyState := by
  decide

/-- Claim C3 (refuted by the code): when no file `catalog/999.json`
exists, a GET for the detail path `/999` does not produce a 404
response; the synchronous file read throws and the exception escapes
the handler, so no response at all is produced. -/
theorem missing_item_detail_throws (env : Env) (o : FsOracle)
    (body : UploadBody) (s : ServerState)
    (h : dirGet s.catalog "999.json" = none) :
    handleRequest env o "GET" "/999" body s = .thrown s := by
  have e1 : handleRequest env o "GET" "/999" body s
      = serveDetailedPage env "/999" s := rfl
  have e2 : entryName (decodeURIComponent ("/999" ++ ".json")) = "999.json" := rfl
  rw [e1]
  unfold serveDetailedPage
  rw [e2, h]

/-- Witness for C3 on a concrete catalog without `999.json`. -/
theorem missing_item_detail_throws_witness :
    dirGet emptyState.catalog "999.json" = none ∧
    handleRequest envD oOk "GET" "/999" body0 emptyState = .thrown emptyState :=
  ⟨by decide, missing_item_detail_throws envD oOk body0 emptyState (by decide)⟩

/-- Claim C4: a POST to `/upload` whose parsed body has a file field
with an empty filename is answered 400 with body `No file specified`
and the disk state — catalog directory and persisted counter included —
is unchanged; a POST whose image write fails is answered 500 with body
`Server Error`, again with the disk state unchanged, so no item file is
written and the counter is not incremented. -/
theorem upload_error_responses (env : Env) (o : FsOracle) (s : ServerState)
    (b1 b2 : UploadBody) (h1 : b1.itemImage.filename = "")
    (h2 : b2.itemImage.filename ≠ "") (hw : o.imageWriteFails = true) :
    handleRequest env o "POST" "/upload" b1 s
      = .ok ⟨400, none, "No file specified"⟩ s ∧
    handleRequest env o "POST" "/upload" b2 s
      = .ok ⟨500, none, "Server Error"⟩ s := by
  have e1 : ∀ b : UploadBody, handleRequest env o "POST" "/upload" b s
      = uploadItem env o b s := fun _ => rfl
  rw [e1, e1]
  constructor
  · unfold uploadItem
    rw [if_pos h1]
  · unfold uploadItem
    rw [if_neg h2]
    simp only [hw, if_true]

/-- Witness for C4: both error branches at concrete inputs. -/
theorem upload_error_responses_witness :
    noFileBody.itemImage.filename = "" ∧ lampBody.itemImage.filename ≠ "" ∧
    oWF.imageWriteFails = true ∧
    (handleRequest envD oWF "POST" "/upload" noFileBody s5
        = .ok ⟨400, none, "No file specified"⟩ s5 ∧
     handleRequest envD oWF "POST" "/upload" lampBody s5
        = .ok ⟨500, none, "Server Error"⟩ s5) :=
  ⟨rfl, by decide, rfl,
   upload_error_responses envD oWF s5 noFileBody lampBody rfl (by decide) rfl⟩

/-- Claim C7 as amended: only the literal path `/catalog.css` is served
from the in-memory stylesheet (status 200, `text/css`, bytes loaded at
startup); the route is a fixed case of the switch, not a pattern over
every `.css` name. -/
theorem catalog_css_serves_stylesheet (env : Env) (o : FsOracle)
    (method : String) (body : UploadBody) (s : ServerState) :
    handleRequest env o method "/catalog.css" body s
      = .ok ⟨200, some "text/css", env.stylesheet⟩ s := rfl

/-- Counterexample to C7 as stated: `GET /style.css` is not served from
the stylesheet; it falls through to the detail-page handler, whose file
read throws. -/
theorem css_other_name_not_stylesheet :
    handleRequest envD oOk "GET" "/style.css" body0 emptyState
        = .thrown emptyState ∧
    handleRequest envD oOk "GET" "/style.css" body0 emptyState
        ≠ .ok ⟨200, some "text/css", envD.stylesheet⟩ emptyState := by
  decide

/-- Claim C10: the router consults the method only under `/upload`; a
request to `/catalog` with any method — POST included — is dispatched to
the catalog list handler, which renders the list page and leaves the
disk state unchanged. -/
theorem catalog_route_ignores_method (env : Env) (o : FsOracle)
    (method : String) (body : UploadBody) (s : ServerState)
    (h : o.readdirFails = false) :
    handleRequest env o method "/catalog" body s
      = .ok ⟨200, some "text/html", buildCatalog env s⟩ s := by
  have e1 : handleRequest env o method "/catalog" body s
      = serveCatalog env o s := rfl
  rw [e1]
  unfold serveCatalog
  simp only [h, Bool.false_eq_true, if_false]

/-- Witness for C10: a POST to `/catalog` renders the list page with no
state change. -/
theorem catalog_route_ignores_method_witness :
    oOk.readdirFails = false ∧
    handleRequest envD oOk "POST" "/catalog" body0 s5
      = .ok ⟨200, some "text/html", buildCatalog envD s5⟩ s5 :=
  ⟨rfl, catalog_route_ignores_method envD oOk "POST" body0 s5 rfl⟩

/-! Infrastructure for reasoning about URLs made of a slash followed by
digits (detail-page ids) and about the suffix-based image dispatch. -/

/-- Characters that can occur in a detail-path URL of the forms
studied here: a slash, a decimal digit, or a character of the literal
suffix `.json`. -/
def okChar (c : Char) : Bool :=
  c = '/' || c.isDigit || c = '.' || c = 'j' || c = 's' || c = 'o' || c = 'n'

/-- A character of a leading segment occurs in the whole list. -/
theorem mem_of_isPre : ∀ {pat hay : List Char}, isPre pat hay = true →
    ∀ c ∈ pat, c ∈ hay
  | [], _, _, _, hc => absurd hc (List.not_mem_nil _)
  | _ :: _, [], h, _, _ => by simp [isPre] at h
  | a :: as, b :: bs, h, c, hc => by
    rw [isPre, Bool.and_eq_true] at h
    obtain ⟨h1, h2⟩ := h
    rcases List.mem_cons.mp hc with rfl | hc2
    · rw [of_decide_eq_true h1]
      exact List.mem_cons_self _ _
    · exact List.mem_cons_of_mem _ (mem_of_isPre h2 c hc2)

/-- A character of a matched substring occurs in the searched text. -/
theorem mem_of_containsSub : ∀ {hay pat : List Char},
    containsSub hay pat = true → ∀ c ∈ pat, c ∈ hay := by
  intro hay
  induction hay with
  | nil =>
    intro pat h c hc
    by_cases hp : isPre pat [] = true
    · exact mem_of_isPre hp c hc
    · rw [containsSub, if_neg hp] at h
      exact absurd h (by simp)
  | cons x t ih =>
    intro pat h c hc
    by_cases hp : isPre pat (x :: t) = true
    · exact mem_of_isPre hp c hc
    · rw [containsSub, if_neg hp] at h
      exact List.mem_cons_of_mem _ (ih h c hc)

/-- A digit differs from any non-digit character. -/
theorem isDigit_ne {c d : Char} (h1 : c.isDigit = true)
    (h2 : d.isDigit = false) : c ≠ d := by
  intro he
  rw [he, h2] at h1
  exact absurd h1 (by simp)

/-- Two characters on opposite sides of the `okChar` classification
differ. -/
theorem okChar_ne {c d : Char} (h1 : okChar c = true) (h2 : okChar d = false) :
    c ≠ d := by
  intro he
  rw [he, h2] at h1
  exact absurd h1 (by simp)

/-- A text all of whose characters satisfy `okChar` contains none of
the image extensions tested by the router. -/
theorem hasImageExt_false {u : String} (h : ∀ c ∈ u.data, okChar c = true) :
    hasImageExt u = false := by
  have key : ∀ (pat : List Char) (L : Char), L ∈ pat → okChar L = false →
      containsSub u.data pat = false := by
    intro pat L hL hbad
    cases hc : containsSub u.data pat
    · rfl
    · have := h L (mem_of_containsSub hc L hL)
      rw [this] at hbad
      exact absurd hbad (by simp)
  unfold hasImageExt
  rw [key ".jpg".data 'p' (by decide) (by decide),
      key ".JPG".data 'J' (by decide) (by decide),
      key ".jpeg".data 'p' (by decide) (by decide),
      key ".JPEG".data 'J' (by decide) (by decide),
      key ".png".data 'p' (by decide) (by decide),
      key ".PNG".data 'P' (by decide) (by decide),
      key ".svg".data 'v' (by decide) (by decide),
      key ".SVG".data 'S' (by decide) (by decide),
      key ".bmp".data 'b' (by decide) (by decide),
      key ".BMP".data 'B' (by decide) (by decide),
      key ".ico".data 'c' (by decide) (by decide)]
  rfl

/-- A list all of whose elements satisfy the predicate is its own
`takeWhile`. -/
theorem takeWhile_all {p : Char → Bool} : ∀ {l : List Char},
    (∀ c ∈ l, p c = true) → l.takeWhile p = l
  | [], _ => rfl
  | c :: t, h => by
    rw [List.takeWhile_cons, h c (List.mem_cons_self _ _), if_pos rfl,
        takeWhile_all (fun x hx => h x (List.mem_cons_of_mem _ hx))]

/-- A URL without query or fragment characters is its own pathname; the
`okChar` characters contain neither. -/
theorem pathname_eq_self {u : String} (h : ∀ c ∈ u.data, okChar c = true) :
    pathname u = u := by
  apply String.ext
  show u.data.takeWhile _ = u.data
  apply takeWhile_all
  intro c hc
  have h1 : c ≠ '?' := okChar_ne (h c hc) (by decide)
  have h2 : c ≠ '#' := okChar_ne (h c hc) (by decide)
  simp [h1, h2]

/-- Percent-free text decodes to itself. -/
theorem pctDecode_eq_self {l : List Char} : (∀ c ∈ l, c ≠ '%') →
    pctDecode l = l := by
  induction l with
  | nil => intro _; rfl
  | cons c rest ih =>
    intro h
    have hc : ¬(c = '%') := h c (List.mem_cons_self _ _)
    have e : pctDecode (c :: rest) = c :: pctDecode rest := by
      cases rest with
      | nil => simp [pctDecode, hc]
      | cons a t =>
        cases t with
        | nil => simp [pctDecode, hc]
        | cons b t2 => simp [pctDecode, hc]
    rw [e, ih (fun x hx => h x (List.mem_cons_of_mem _ hx))]

/-- A list without slashes is unchanged by slash collapsing. -/
theorem squeeze_eq_self : ∀ {l : List Char}, (∀ c ∈ l, c ≠ '/') →
    squeeze l = l
  | [], _ => rfl
  | [_], _ => rfl
  | c :: d :: rest, h => by
    have hc : ¬(c = '/' ∧ d = '/') := by
      rintro ⟨h1, -⟩
      exact h c (List.mem_cons_self _ _) h1
    rw [squeeze, if_neg hc,
        squeeze_eq_self (fun x hx => h x (List.mem_cons_of_mem _ hx))]

/-- Collapsing slashes after a single leading slash over slash-free
text changes nothing. -/
theorem squeeze_slash_cons {l : List Char} (h : ∀ c ∈ l, c ≠ '/') :
    squeeze ('/' :: l) = '/' :: l := by
  cases l with
  | nil => rfl
  | cons d rest =>
    have hd : ¬('/' = '/' ∧ d = '/') := by
      rintro ⟨-, h2⟩
      exact h d (List.mem_cons_self _ _) h2
    rw [squeeze, if_neg hd, squeeze_eq_self h]

/-- Dropping leading slashes from slash-free text changes nothing. -/
theorem dropWhile_no_slash {l : List Char} (h : ∀ c ∈ l, c ≠ '/') :
    l.dropWhile (fun c => c = '/') = l := by
  cases l with
  | nil => rfl
  | cons c t =>
    have : ¬(c = '/') := h c (List.mem_cons_self _ _)
    simp [List.dropWhile_cons, this]

/-- The directory-entry name computed from a URL of shape `/x` where
`x` is slash-free: the leading slash is stripped. -/
theorem entryName_slash {l : List Char} (h : ∀ c ∈ l, c ≠ '/') :
    entryName ⟨'/' :: l⟩ = ⟨l⟩ := by
  unfold entryName
  rw [show (⟨'/' :: l⟩ : String).data = '/' :: l from rfl, squeeze_slash_cons h]
  rw [List.dropWhile_cons]
  simp [dropWhile_no_slash h]

/-- The detail handler on a URL `/x` with `x` slash-free and
percent-free looks up the entry `x.json` of the catalog directory. -/
theorem serveDetailedPage_lookup (env : Env) (s : ServerState)
    (l : List Char) (hs : ∀ c ∈ l, c ≠ '/') (hp : ∀ c ∈ l, c ≠ '%') :
    serveDetailedPage env ⟨'/' :: l⟩ s
      = match dirGet s.catalog ⟨l ++ ".json".data⟩ with
        | none => .thrown s
        | some it =>
            .ok ⟨200, some "text/html", buildDetailedPage env it⟩ s := by
  unfold serveDetailedPage
  have hjs : ∀ c ∈ ".json".data, c ≠ '/' := by decide
  have hjp : ∀ c ∈ ".json".data, c ≠ '%' := by decide
  have hdata : ((⟨'/' :: l⟩ : String) ++ ".json").data
      = '/' :: (l ++ ".json".data) := by
    rw [String.data_append]
    rfl
  have hdec : decodeURIComponent ((⟨'/' :: l⟩ : String) ++ ".json")
      = ⟨'/' :: (l ++ ".json".data)⟩ := by
    unfold decodeURIComponent
    rw [hdata]
    rw [pctDecode_eq_self]
    intro c hc
    rcases List.mem_cons.mp hc with rfl | hc2
    · decide
    · rcases List.mem_append.mp hc2 with h3 | h3
      · exact hp c h3
      · exact hjp c h3
  rw [hdec, entryName_slash]
  intro c hc
  rcases List.mem_append.mp hc with h3 | h3
  · exact hs c h3
  · exact hjs c h3

/-- URLs whose second character is a digit differ from route paths
whose second character is not. -/
theorem digit_url_ne {u tgt : String} {a b : Char} {t r : List Char}
    (hu : u.data = '/' :: a :: t) (htgt : tgt.data = '/' :: b :: r)
    (ha : a.isDigit = true) (hb : b.isDigit = false) : u ≠ tgt := by
  intro he
  have h2 : ('/' :: b :: r : List Char) = '/' :: a :: t := by
    rw [← htgt, ← he, hu]
  obtain ⟨h3, -⟩ : b = a ∧ r = t := by simpa using h2
  rw [h3, ha] at hb
  exact absurd hb (by simp)

/-- A server state whose image directory holds `pic.png`. -/
def sImg : ServerState := ⟨⟨"T", 0⟩, [], [("pic.png", "PNGBYTES")]⟩

/-- A server state whose image directory holds `pic.ICO` (uppercase
extension). -/
def sICO : ServerState := ⟨⟨"T", 0⟩, [], [("pic.ICO", "ICOBYTES")]⟩

/-- A server state whose catalog holds item 6. -/
def s6 : ServerState := ⟨⟨"T", 6⟩, [("6.json", demoItem 6)], []⟩

/-- Claim C6 as amended: a GET for a single-segment URL `/<filename>`
whose filename is free of slashes and percent signs (so the builtin
decoder cannot throw and no `.`/`..` path resolution is involved),
contains one of the extension strings the router actually tests — the
lowercase and uppercase variants of jpg, jpeg, png, svg, bmp but only
lowercase ico — and whose pathname is none of the fixed routes, is
served from the image directory: the raw bytes stored under that
filename with content type `image/*` when present, and status 404 when
absent. -/
theorem image_request_served (env : Env) (o : FsOracle) (body : UploadBody)
    (s : ServerState) (fname : String)
    (hs : ∀ c ∈ fname.data, c ≠ '/') (hp : ∀ c ∈ fname.data, c ≠ '%')
    (h1 : hasImageExt ("/" ++ fname) = true)
    (h2 : pathname ("/" ++ fname) ≠ "/catalog")
    (h3 : pathname ("/" ++ fname) ≠ "/upload")
    (h4 : pathname ("/" ++ fname) ≠ "/catalog.css") :
    (∀ d, dirGet s.images fname = some d →
       handleRequest env o "GET" ("/" ++ fname) body s
         = .ok ⟨200, some "image/*", d⟩ s) ∧
    (dirGet s.images fname = none →
       handleRequest env o "GET" ("/" ++ fname) body s
         = .ok ⟨404, none, ""⟩ s) := by
  have e1 : handleRequest env o "GET" ("/" ++ fname) body s
      = serveImage ("/" ++ fname) s := by
    unfold handleRequest
    rw [if_neg h2, if_neg h3, if_neg h4, h1, if_pos rfl]
  have hdec : decodeURIComponent ("/" ++ fname) = ⟨'/' :: fname.data⟩ := by
    unfold decodeURIComponent
    rw [show ("/" ++ fname).data = '/' :: fname.data from
          by rw [String.data_append]; rfl]
    rw [pctDecode_eq_self]
    intro c hc
    rcases List.mem_cons.mp hc with rfl | hc2
    · decide
    · exact hp c hc2
  have hkey : entryName (decodeURIComponent ("/" ++ fname)) = fname := by
    rw [hdec, entryName_slash hs]
  constructor
  · intro d hd
    rw [e1]
    unfold serveImage
    rw [hkey, hd]
  · intro hd
    rw [e1]
    unfold serveImage
    rw [hkey, hd]

/-- Witness for C6: `GET /pic.png` returns the stored bytes. -/
theorem image_request_served_witness :
    (∀ c ∈ ("pic.png" : String).data, c ≠ '/') ∧
    (∀ c ∈ ("pic.png" : String).data, c ≠ '%') ∧
    hasImageExt ("/" ++ "pic.png") = true ∧
    pathname ("/" ++ "pic.png") ≠ "/catalog" ∧
    pathname ("/" ++ "pic.png") ≠ "/upload" ∧
    pathname ("/" ++ "pic.png") ≠ "/catalog.css" ∧
    dirGet sImg.images "pic.png" = some "PNGBYTES" ∧
    handleRequest envD oOk "GET" ("/" ++ "pic.png") body0 sImg
      = .ok ⟨200, some "image/*", "PNGBYTES"⟩ sImg :=
  ⟨by decide, by decide, by decide, by decide, by decide, by decide, by decide,
   (image_request_served envD oOk body0 sImg "pic.png" (by decide) (by decide)
      (by decide) (by decide) (by decide) (by decide)).1 "PNGBYTES" (by decide)⟩

/-- Counterexample to C6 as stated: the uppercase extension `.ICO` is
not in the router's list, so `GET /pic.ICO` is not served as an image
even though the file is present; the request falls through to the
detail handler and throws. -/
theorem ico_uppercase_not_served :
    hasImageExt "/pic.ICO" = false ∧
    handleRequest envD oOk "GET" "/pic.ICO" body0 sICO = .thrown sICO ∧
    handleRequest envD oOk "GET" "/pic.ICO" body0 sICO
      ≠ .ok ⟨200, some "image/*", "ICOBYTES"⟩ sICO := by
  decide

/-- Claim C5 as amended: for an id string of decimal digits whose item
file is present, `GET /<id>` renders the detail page for that item
(name, description and image tag substituted into the detail
template); but `GET /<id>.json` does not reach that item — the handler
appends a second `.json` and reads `catalog/<id>.json.json`, so when no
such file exists the read throws and no page is rendered. -/
theorem detail_routes (env : Env) (o : FsOracle) (body : UploadBody)
    (s : ServerState) (idStr : String) (item : Item)
    (hne : idStr ≠ "")
    (hdig : ∀ c ∈ idStr.data, c.isDigit = true)
    (hit : dirGet s.catalog (idStr ++ ".json") = some item)
    (hmiss : dirGet s.catalog (idStr ++ ".json.json") = none) :
    handleRequest env o "GET" ("/" ++ idStr) body s
      = .ok ⟨200, some "text/html", buildDetailedPage env item⟩ s ∧
    handleRequest env o "GET" ("/" ++ idStr ++ ".json") body s = .thrown s := by
  obtain ⟨a, t, hsplit⟩ : ∃ a t, idStr.data = a :: t := by
    cases hh : idStr.data with
    | nil => exact absurd (String.ext (by rw [hh])) hne
    | cons a t => exact ⟨a, t, rfl⟩
  have ha : a.isDigit = true := hdig a (by rw [hsplit]; exact List.mem_cons_self _ _)
  have hjok : ∀ c ∈ ".json".data, okChar c = true := by decide
  have hd1 : ("/" ++ idStr).data = '/' :: a :: t := by
    rw [String.data_append, hsplit]
    rfl
  have hd2 : ("/" ++ idStr ++ ".json").data
      = '/' :: a :: (t ++ ".json".data) := by
    rw [String.data_append, String.data_append, hsplit]
    rfl
  have hokid : ∀ c ∈ idStr.data, okChar c = true := by
    intro c hc
    have := hdig c hc
    simp [okChar, this]
  have hok1 : ∀ c ∈ ("/" ++ idStr).data, okChar c = true := by
    intro c hc
    rw [String.data_append] at hc
    rcases List.mem_append.mp hc with h3 | h3
    · have : c = '/' := by simpa using h3
      rw [this]; decide
    · exact hokid c h3
  have hok2 : ∀ c ∈ ("/" ++ idStr ++ ".json").data, okChar c = true := by
    intro c hc
    rw [String.data_append] at hc
    rcases List.mem_append.mp hc with h3 | h3
    · exact hok1 c h3
    · exact hjok c h3
  have hcat : ("/catalog" : String).data = '/' :: 'c' :: "atalog".data := rfl
  have hupl : ("/upload" : String).data = '/' :: 'u' :: "pload".data := rfl
  have hcss : ("/catalog.css" : String).data
      = '/' :: 'c' :: "atalog.css".data := rfl
  constructor
  · -- the plain /<id> route
    have hr1 : pathname ("/" ++ idStr) ≠ "/catalog" := by
      rw [pathname_eq_self hok1]
      exact digit_url_ne hd1 hcat ha (by decide)
    have hr2 : pathname ("/" ++ idStr) ≠ "/upload" := by
      rw [pathname_eq_self hok1]
      exact digit_url_ne hd1 hupl ha (by decide)
    have hr3 : pathname ("/" ++ idStr) ≠ "/catalog.css" := by
      rw [pathname_eq_self hok1]
      exact digit_url_ne hd1 hcss ha (by decide)
    have himg : hasImageExt ("/" ++ idStr) = false := hasImageExt_false hok1
    have e1 : handleRequest env o "GET" ("/" ++ idStr) body s
        = serveDetailedPage env ("/" ++ idStr) s := by
      unfold handleRequest
      rw [if_neg hr1, if_neg hr2, if_neg hr3, himg]
      rfl
    rw [e1]
    have hu : ("/" ++ idStr) = ⟨'/' :: a :: t⟩ := String.ext (by rw [hd1])
    have hsafe1 : ∀ c ∈ a :: t, c ≠ '/' ∧ c ≠ '%' := by
      intro c hc
      have hcd : c.isDigit = true := hdig c (by rw [hsplit]; exact hc)
      exact ⟨isDigit_ne hcd (by decide), isDigit_ne hcd (by decide)⟩
    rw [hu, serveDetailedPage_lookup env s (a :: t)
          (fun c hc => (hsafe1 c hc).1) (fun c hc => (hsafe1 c hc).2)]
    have hkey : (⟨(a :: t) ++ ".json".data⟩ : String) = idStr ++ ".json" := by
      apply String.ext
      rw [String.data_append, hsplit]
    rw [hkey, hit]
  · -- the /<id>.json route
    have hr1 : pathname ("/" ++ idStr ++ ".json") ≠ "/catalog" := by
      rw [pathname_eq_self hok2]
      exact digit_url_ne hd2 hcat ha (by decide)
    have hr2 : pathname ("/" ++ idStr ++ ".json") ≠ "/upload" := by
      rw [pathname_eq_self hok2]
      exact digit_url_ne hd2 hupl ha (by decide)
    have hr3 : pathname ("/" ++ idStr ++ ".json") ≠ "/catalog.css" := by
      rw [pathname_eq_self hok2]
      exact digit_url_ne hd2 hcss ha (by decide)
    have himg : hasImageExt ("/" ++ idStr ++ ".json") = false :=
      hasImageExt_false hok2
    have e1 : handleRequest env o "GET" ("/" ++ idStr ++ ".json") body s
        = serveDetailedPage env ("/" ++ idStr ++ ".json") s := by
      unfold handleRequest
      rw [if_neg hr1, if_neg hr2, if_neg hr3, himg]
      rfl
    rw [e1]
    have hsafe2 : ∀ c ∈ a :: (t ++ ".json".data), c ≠ '/' ∧ c ≠ '%' := by
      intro c hc
      rcases List.mem_cons.mp hc with rfl | hc2
      · exact ⟨isDigit_ne ha (by decide), isDigit_ne ha (by decide)⟩
      · rcases List.mem_append.mp hc2 with h3 | h3
        · have hcd : c.isDigit = true :=
            hdig c (by rw [hsplit]; exact List.mem_cons_of_mem _ h3)
          exact ⟨isDigit_ne hcd (by decide), isDigit_ne hcd (by decide)⟩
        · have hj : ∀ x ∈ ".json".data, x ≠ '/' ∧ x ≠ '%' := by decide
          exact hj c h3
    have hu : ("/" ++ idStr ++ ".json") = ⟨'/' :: a :: (t ++ ".json".data)⟩ :=
      String.ext (by rw [hd2])
    rw [hu, serveDetailedPage_lookup env s (a :: (t ++ ".json".data))
          (fun c hc => (hsafe2 c hc).1) (fun c hc => (hsafe2 c hc).2)]
    have hkey : (⟨(a :: (t ++ ".json".data)) ++ ".json".data⟩ : String)
        = idStr ++ ".json.json" := by
      apply String.ext
      rw [String.data_append, hsplit]
      show (a :: (t ++ ".json".data)) ++ ".json".data
          = a :: (t ++ ".json.json".data)
      rw [show (".json.json" : String).data = ".json".data ++ ".json".data from rfl]
      simp
    rw [hkey, hmiss]

/-- Witness for C5: with item file `6.json` present, `GET /6` renders
its detail page and `GET /6.json` throws. -/
theorem detail_routes_witness :
    ("6" : String) ≠ "" ∧ (∀ c ∈ ("6" : String).data, c.isDigit = true) ∧
    dirGet s6.catalog ("6" ++ ".json") = some (demoItem 6) ∧
    dirGet s6.catalog ("6" ++ ".json.json") = none ∧
    (handleRequest envD oOk "GET" ("/" ++ "6") body0 s6
        = .ok ⟨200, some "text/html", buildDetailedPage envD (demoItem 6)⟩ s6 ∧
     handleRequest envD oOk "GET" ("/" ++ "6" ++ ".json") body0 s6
        = .thrown s6) :=
  ⟨by decide, by decide, by decide, by decide,
   detail_routes envD oOk body0 s6 "6" (demoItem 6) (by decide) (by decide)
     (by decide) (by decide)⟩

/-- Counterexample to C5 as stated: item 6 is present, yet `GET
/6.json` does not render its detail page — it throws, because the
handler looks up `catalog/6.json.json`. -/
theorem detail_json_route_counterexample :
    dirGet s6.catalog "6.json" = some (demoItem 6) ∧
    handleRequest envD oOk "GET" "/6.json" body0 s6 = .thrown s6 ∧
    handleRequest envD oOk "GET" "/6.json" body0 s6
      ≠ .ok ⟨200, some "text/html", buildDetailedPage envD (demoItem 6)⟩ s6 := by
  decide

/-! Infrastructure for claim C8: the decimal rendering of a natural
number (as produced for the anchor href) is injective. -/

/-- The decimal digit characters of a natural number, most significant
first; agrees with the digit list built by `Nat.toDigitsCore`. -/
def natChars (n : Nat) : List Char :=
  if _h : n < 10 then [Nat.digitChar n]
  else natChars (n / 10) ++ [Nat.digitChar (n % 10)]
termination_by n
decreasing_by exact Nat.div_lt_self (by omega) (by omega)

/-- Value of a decimal digit character appended to an accumulator. -/
def digitStep (a : Nat) (c : Char) : Nat :=
  10 * a + (c.toNat - 48)

/-- Digit characters below ten are digits. -/
theorem digitChar_isDigit {m : Nat} (h : m < 10) :
    (Nat.digitChar m).isDigit = true := by
  interval_cases m <;> decide

/-- Code point of a digit character below ten. -/
theorem digitChar_toNat {m : Nat} (h : m < 10) :
    (Nat.digitChar m).toNat = 48 + m := by
  interval_cases m <;> decide

/-- The fueled core digit printer agrees with `natChars` when given
enough fuel. -/
theorem toDigitsCore_eq_natChars : ∀ (fuel n : Nat) (acc : List Char),
    n < fuel → Nat.toDigitsCore 10 fuel n acc = natChars n ++ acc := by
  intro fuel
  induction fuel with
  | zero => intro n acc h; omega
  | succ f ih =>
    intro n acc h
    show (if n / 10 = 0 then Nat.digitChar (n % 10) :: acc
          else Nat.toDigitsCore 10 f (n / 10) (Nat.digitChar (n % 10) :: acc))
        = natChars n ++ acc
    by_cases h0 : n / 10 = 0
    · have hn : n < 10 := by omega
      rw [if_pos h0, natChars, dif_pos hn, Nat.mod_eq_of_lt hn]
      rfl
    · have hn : ¬n < 10 := by omega
      rw [if_neg h0, ih (n / 10) (Nat.digitChar (n % 10) :: acc) (by omega)]
      conv_rhs => rw [natChars]
      rw [dif_neg hn]
      simp

/-- Every character produced by `natChars` is a digit. -/
theorem natChars_digits (n : Nat) : ∀ c ∈ natChars n, c.isDigit = true := by
  induction n using Nat.strong_induction_on with
  | _ n ih =>
    intro c hc
    by_cases h : n < 10
    · rw [natChars, dif_pos h] at hc
      have : c = Nat.digitChar n := by simpa using hc
      rw [this]
      exact digitChar_isDigit h
    · rw [natChars, dif_neg h] at hc
      rcases List.mem_append.mp hc with h3 | h3
      · exact ih (n / 10) (Nat.div_lt_self (by omega) (by omega)) c h3
      · have : c = Nat.digitChar (n % 10) := by simpa using h3
        rw [this]
        exact digitChar_isDigit (by omega)

/-- Folding the digit characters of `n` over `digitStep` recovers `n`
(shifted past an arbitrary accumulator). -/
theorem natChars_foldl (n : Nat) : ∀ a : Nat,
    (natChars n).foldl digitStep a = a * 10 ^ (natChars n).length + n := by
  induction n using Nat.strong_induction_on with
  | _ n ih =>
    intro a
    by_cases h : n < 10
    · rw [natChars, dif_pos h]
      show digitStep a (Nat.digitChar n) = a * 10 ^ 1 + n
      unfold digitStep
      rw [digitChar_toNat h, pow_one]
      omega
    · rw [natChars, dif_neg h, List.foldl_append,
          ih (n / 10) (Nat.div_lt_self (by omega) (by omega)) a]
      show digitStep (a * 10 ^ (natChars (n / 10)).length + n / 10)
            (Nat.digitChar (n % 10))
          = a * 10 ^ (natChars (n / 10) ++ [Nat.digitChar (n % 10)]).length + n
      unfold digitStep
      rw [digitChar_toNat (show n % 10 < 10 by omega), List.length_append,
          List.length_cons, List.length_nil]
      have hdm : 10 * (n / 10) + n % 10 = n := Nat.div_add_mod n 10
      generalize (natChars (n / 10)).length = k
      rw [pow_succ]
      calc 10 * (a * 10 ^ k + n / 10) + (48 + n % 10 - 48)
          = 10 * (a * 10 ^ k) + (10 * (n / 10) + n % 10) := by omega
        _ = 10 * (a * 10 ^ k) + n := by rw [hdm]
        _ = a * (10 ^ k * 10) + n := by ring

/-- The decimal digit list determines the number. -/
theorem natChars_inj {m n : Nat} (h : natChars m = natChars n) : m = n := by
  have h1 := natChars_foldl m 0
  have h2 := natChars_foldl n 0
  rw [h] at h1
  simp only [Nat.zero_mul, Nat.zero_add] at h1 h2
  rw [h1] at h2
  exact h2

/-- The decimal rendering used for hrefs and item filenames is the
`natChars` digit list. -/
theorem repr_eq_natChars (n : Nat) : Nat.repr n = ⟨natChars n⟩ := by
  unfold Nat.repr Nat.toDigits
  rw [toDigitsCore_eq_natChars (n + 1) n [] (by omega)]
  simp [List.asString]

/-- Character data of a decimal rendering. -/
theorem nat_repr_data (n : Nat) : (Nat.repr n).data = natChars n := by
  rw [repr_eq_natChars]

/-- Two lists followed by the same separator (absent from both) and an
arbitrary remainder can be cancelled. -/
theorem append_sep_inj {q : Char} : ∀ {xs ys r1 r2 : List Char},
    q ∉ xs → q ∉ ys → xs ++ q :: r1 = ys ++ q :: r2 → xs = ys := by
  intro xs
  induction xs with
  | nil =>
    intro ys r1 r2 _ hy h
    cases ys with
    | nil => rfl
    | cons y yt =>
      simp only [List.nil_append, List.cons_append] at h
      injection h with h1 _
      exact absurd (by rw [h1]; exact List.mem_cons_self _ _) hy
  | cons x xt ih =>
    intro ys r1 r2 hx hy h
    cases ys with
    | nil =>
      simp only [List.cons_append, List.nil_append] at h
      injection h with h1 _
      exact absurd (by rw [← h1]; exact List.mem_cons_self _ _) hx
    | cons y yt =>
      simp only [List.cons_append] at h
      injection h with h1 h2
      rw [h1, ih (fun hm => hx (List.mem_cons_of_mem _ hm))
            (fun hm => hy (List.mem_cons_of_mem _ hm)) h2]

/-- The double quote does not occur in a decimal rendering. -/
theorem natChars_no_quote (n : Nat) : '\"' ∉ natChars n := by
  intro hm
  have := natChars_digits n _ hm
  exact absurd this (by decide)

/-- Equal anchor tags come from items with equal ids: the id sits
between the fixed prefix and the first double quote after it, and
decimal renderings are quote-free and injective. -/
theorem mkAnchorTag_id_inj {a b : Item} (h : mkAnchorTag a = mkAnchorTag b) :
    a.id = b.id := by
  unfold mkAnchorTag at h
  have hd := congrArg String.data h
  simp only [String.data_append, nat_repr_data, List.append_assoc] at hd
  have hd2 := List.append_cancel_left hd
  simp only [List.cons_append] at hd2
  exact natChars_inj (append_sep_inj (natChars_no_quote a.id)
    (natChars_no_quote b.id) hd2)

/-- Claim C8: the list page built from a catalog of N well-formed item
files contains exactly N anchor-wrapped image tags — one per item, in
directory order, each with the item's id as its href — injected into
the list template together with the configured title; items with
distinct ids produce distinct anchor tags, hence distinct detail
links. -/
theorem catalog_page_tags (env : Env) (o : FsOracle) (s : ServerState)
    (a b : Item) (_ha : a ∈ listItems s) (_hb : b ∈ listItems s)
    (hid : a.id ≠ b.id) (hrd : o.readdirFails = false) :
    serveCatalog env o s
      = .ok ⟨200, some "text/html",
          render env.catalogTpl
            [("title", s.config.title),
             ("imageTags", String.join (imageNamesToTags (listItems s)))]⟩ s ∧
    (imageNamesToTags (listItems s)).length = (listItems s).length ∧
    imageNamesToTags (listItems s)
      = (listItems s).map (fun it =>
          "<a href=\"" ++ Nat.repr it.id ++
            "\">\n              <img class=\"item-image\" src=\"" ++ it.image ++
            "\" alt=\"" ++ it.image ++ "\">\n            </a>") ∧
    mkAnchorTag a ≠ mkAnchorTag b := by
  refine ⟨?_, ?_, rfl, fun he => hid (mkAnchorTag_id_inj he)⟩
  · unfold serveCatalog
    rw [hrd]
    rfl
  · simp [imageNamesToTags]

/-- Witness for C8 on the five-item demo catalog, separating items 1
and 2. -/
theorem catalog_page_tags_witness :
    demoItem 1 ∈ listItems s5 ∧ demoItem 2 ∈ listItems s5 ∧
    (demoItem 1).id ≠ (demoItem 2).id ∧ oOk.readdirFails = false ∧
    (serveCatalog envD oOk s5
        = .ok ⟨200, some "text/html",
            render envD.catalogTpl
              [("title", s5.config.title),
               ("imageTags", String.join (imageNamesToTags (listItems s5)))]⟩ s5 ∧
     (imageNamesToTags (listItems s5)).length = (listItems s5).length ∧
     imageNamesToTags (listItems s5)
       = (listItems s5).map (fun it =>
           "<a href=\"" ++ Nat.repr it.id ++
             "\">\n              <img class=\"item-image\" src=\"" ++ it.image ++
             "\" alt=\"" ++ it.image ++ "\">\n            </a>") ∧
     mkAnchorTag (demoItem 1) ≠ mkAnchorTag (demoItem 2)) :=
  ⟨by decide, by decide, by decide, rfl,
   catalog_page_tags envD oOk s5 (demoItem 1) (demoItem 2) (by decide)
     (by decide) (by decide) rfl⟩

/-! Temporal model for claim C9: the asynchronous events of the success
path of `uploadItem` and the orderings the callback structure imposes. -/

/-- The file-system and response events of one successful upload. -/
inductive UploadEv where
  | imageWriteIssued
  | imageWriteDone
  | configWriteIssued
  | configWriteDone
  | itemWriteIssued
  | itemWriteDone
  | readdirIssued
  | readdirDone
  | responseSent
deriving DecidableEq

/-- The nine events of a successful upload. -/
def uploadEvents : List UploadEv :=
  [.imageWriteIssued, .imageWriteDone, .configWriteIssued, .configWriteDone,
   .itemWriteIssued, .itemWriteDone, .readdirIssued, .readdirDone,
   .responseSent]

/-- Happens-before edges of the success path of `uploadItem`
(`server.js` lines 147-166): a completion follows its issue; the
callback of the image write runs after that write completes and issues,
in program order, the config write (line 163, no callback), the item
write (line 164, no callback) and — via `serveCatalog` — the readdir
(line 62); the response is ended in the readdir callback (line 39).
The config and item writes have no callbacks, so nothing orders their
completions relative to later events. -/
def uploadHB : List (UploadEv × UploadEv) :=
  [(.imageWriteIssued, .imageWriteDone),
   (.imageWriteDone, .configWriteIssued),
   (.configWriteIssued, .itemWriteIssued),
   (.itemWriteIssued, .readdirIssued),
   (.readdirIssued, .readdirDone),
   (.readdirDone, .responseSent),
   (.configWriteIssued, .configWriteDone),
   (.itemWriteIssued, .itemWriteDone)]

/-- A valid execution interleaving: every upload event occurs exactly
once and the order respects every happens-before edge. -/
def validUploadTrace (t : List UploadEv) : Bool :=
  t.length = 9 && uploadEvents.all (fun e => t.count e = 1) &&
  uploadHB.all (fun p => t.indexOf p.1 < t.indexOf p.2)

/-- A valid interleaving in which the item JSON write completes only
after the response has been sent. -/
def lateItemWriteTrace : List UploadEv :=
  [.imageWriteIssued, .imageWriteDone, .configWriteIssued, .itemWriteIssued,
   .readdirIssued, .readdirDone, .responseSent, .configWriteDone,
   .itemWriteDone]

/-- Claim C9 as amended: in every valid interleaving of a successful
upload the image write completes before the item JSON write is issued,
and the item JSON write is issued before the response is sent; but its
completion is not awaited (`fs.writeFile` on line 164 is passed no
callback), so the response may be sent first. -/
theorem upload_write_ordering (t : List UploadEv)
    (h : validUploadTrace t = true) :
    t.indexOf UploadEv.imageWriteDone < t.indexOf UploadEv.itemWriteIssued ∧
    t.indexOf UploadEv.itemWriteIssued < t.indexOf UploadEv.responseSent := by
  unfold validUploadTrace uploadHB at h
  simp only [List.all_cons, List.all_nil, Bool.and_eq_true,
    decide_eq_true_eq, Bool.and_true] at h
  obtain ⟨-, h1, h2, h3, h4, h5, h6, -⟩ := h.2
  exact ⟨by omega, by omega⟩

/-- Witness for C9's amended ordering on a concrete valid trace. -/
theorem upload_write_ordering_witness :
    validUploadTrace lateItemWriteTrace = true ∧
    (lateItemWriteTrace.indexOf UploadEv.imageWriteDone
        < lateItemWriteTrace.indexOf UploadEv.itemWriteIssued ∧
     lateItemWriteTrace.indexOf UploadEv.itemWriteIssued
        < lateItemWriteTrace.indexOf UploadEv.responseSent) :=
  ⟨by decide, upload_write_ordering lateItemWriteTrace (by decide)⟩

/-- Counterexample to C9 as stated: `lateItemWriteTrace` is a valid
execution of the upload success path, yet the response is sent before
the item JSON write completes, so the code does not sequence the item
write's completion before the response. -/
theorem response_before_item_write_done :
    validUploadTrace lateItemWriteTrace = true ∧
    lateItemWriteTrace.indexOf UploadEv.responseSent
      < lateItemWriteTrace.indexOf UploadEv.itemWriteDone := by
  decide

end SimpleCatalog
